import Mathlib

/-!
# Hymnal Browser — Index & Statistics Engine: shallow embedding

A shallow embedding of the core of `src/browser.py` (msdacsystems/hymnalbrowser):
the archive catalog builder (`HymnsDatabase.parseHymnDatabase` / `splitHymn`),
the equivalence-and-lookup resolver (`HymnsDatabase.getStats`), and the
statistics store (`Data.check` / `load` / `verifyContents` / `dump` /
`generateDefault`), together with the two statistics-mutation sites
(`InputCore.executeFile` line 1777f and `ThreadBackground.run` line 3121ff).

Python strings are modelled as Lean `String`/`List Char`; Python slicing,
`str.split`, `str.zfill` and `str.isdigit` are embedded below with their
Python semantics.  JSON numbers in statistics arrays are modelled as `Int`
(the timestamp's fractional part plays no role in any property considered
here).  JSON objects are modelled as association lists.

The external helper library `kenverdadero.KCore` is not part of this
repository; its helpers are modelled from their documented usage in
`browser.py`:
  * `KString.toDigits(n, 3)` — decimal rendering zero-padded to 3 digits
    ("Converts the Hymn Number to a format of 3-digit padded hymn number");
  * `KString.filterOnly(0, s)` — the non-digit characters of `s` (used to
    "cancel the process when the hymn number is not a valid number or
    contains letters");
  * `invert(i)` — `1 - i` on `{0, 1}`;
  * `KString.toHashMD5` — an opaque hash, kept as an explicit function
    parameter `h : StatDoc → String` wherever it matters.
-/

set_option maxRecDepth 1000000
set_option maxHeartbeats 4000000

namespace HymnalBrowser

/-- Python slice `s[a:b]` with non-negative bounds. -/
def pySlice (s : List Char) (a b : Nat) : List Char :=
  (s.drop a).take (b - a)

/-- Python slice `s[a:-k]` with a negative stop index: the stop position is
`len(s) - k`, clamped at 0 (Lean's truncated `Nat` subtraction matches
Python's clamping of negative resolved indices). -/
def pySliceNeg (s : List Char) (a k : Nat) : List Char :=
  (s.drop a).take (s.length - k - a)

/-- Python `str.split(sep)` for a one-character separator: keeps empty
fields, and yields `[s]` when the separator does not occur. -/
def pySplit (sep : Char) : List Char → List (List Char)
  | [] => [[]]
  | c :: rest =>
    let r := pySplit sep rest
    if c = sep then [] :: r
    else
      match r with
      | [] => [[c]]
      | h :: t => (c :: h) :: t

/-- Python `str.isdigit()`: non-empty and every character a digit. -/
def pyIsdigit (s : List Char) : Bool :=
  !s.isEmpty && s.all Char.isDigit

/-- Python `str.zfill(w)`: left-pad with `'0'` up to width `w`.
(The sign-aware case of `zfill` is irrelevant here: every call site first
rejects strings containing non-digit characters.) -/
def zfill (s : List Char) (w : Nat) : List Char :=
  List.replicate (w - s.length) '0' ++ s

/-- `KString.toDigits(n, 3)` on an integer argument, modelled from its
documented usage: decimal rendering of `n`, zero-padded to 3 digits. -/
def toDigits3 (n : Nat) : List Char :=
  zfill (Nat.repr n).toList 3

/-- `KString.filterOnly(0, s)`, modelled from its documented usage: the
characters of `s` that are not decimal digits. -/
def filterNonDigits (s : List Char) : List Char :=
  s.filter (fun c => !c.isDigit)

/-- `int(s)` on a string of decimal digits (the only use in the embedded
code paths: every caller has already rejected non-digit characters). -/
def pyInt (s : List Char) : Nat :=
  s.foldl (fun acc c => acc * 10 + (c.toNat - '0'.toNat)) 0

/-- The `num` slot of a split filename: `hymnFile[3:6]` when that slice is
all digits, and otherwise the Python integer sentinel `0` (`splitHymn`
returns a heterogeneous value; downstream comparisons against strings are
then always false, which this two-constructor type reproduces). -/
inductive NumField where
  | str (s : List Char)
  | zero
deriving DecidableEq, Repr

/-- Python's mixed string-or-int values reaching the `dbIndex` slot of a
lookup result: the placeholder is the empty string, the computed value an
integer index. -/
inductive StrOrNat where
  | s (v : List Char)
  | i (v : Nat)
deriving DecidableEq, Repr

/-- `HymnsDatabase.splitHymn`: positional split of an archive entry name
into `(cat, num, title, ext)` — `hymnFile[:2]`, `hymnFile[3:6]` (digits,
else the sentinel `0`), `hymnFile[7:-5]`, `hymnFile.split('.')[-1]`. -/
structure HYMN where
  cat : List Char
  num : NumField
  title : List Char
  ext : List Char
deriving DecidableEq, Repr

def splitHymn (hymnFile : List Char) : HYMN :=
  { cat := pySlice hymnFile 0 2
    num :=
      if pyIsdigit (pySlice hymnFile 3 6) then .str (pySlice hymnFile 3 6)
      else .zero
    title := pySliceNeg hymnFile 7 5
    ext := (pySplit '.' hymnFile).getLastD [] }

/-- Maximum hymn number, `SYS.HYMNS_MAX` / `HDB.TOTAL_HYMNS`. -/
def HYMNS_MAX : Nat := 474

/-- One category's parallel sequences `HYMNAL[i] = [numbers, titles]`. -/
structure Category where
  nums : List NumField
  titles : List (List Char)
deriving DecidableEq, Repr

/-- The parsed hymnal, `parseHymnDatabase`'s namedtuple
`HYMNAL = (EN, TL, US, HYMNS, TOTAL, MISSING)` (the flat `HYMNS` list and
the `TOTAL` counts are carried for completeness). -/
structure Hymnal where
  en : Category
  tl : Category
  us : Category
  missing : List (List Char)
deriving DecidableEq, Repr

/-- The three known category codes, `CATS = ["EN", "TL", "US"]`. -/
def CATS : List (List Char) := [['E', 'N'], ['T', 'L'], ['U', 'S']]

/-- The flat `hNums` list: `spH.num` of every entry, appended
unconditionally before the category dispatch. -/
def hNums (fns : List (List Char)) : List NumField :=
  fns.map (fun f => (splitHymn f).num)

/-- The numbers indexed into category `i`: entries whose split category
equals `CATS[i]` and whose extension is `pptx` (the `break` in the source
loop is immaterial: an entry matches at most one category code). -/
def catNums (fns : List (List Char)) (i : Nat) : List NumField :=
  fns.filterMap (fun f =>
    if (splitHymn f).cat = CATS.getD i [] ∧ (splitHymn f).ext = ['p', 'p', 't', 'x']
    then some (splitHymn f).num else none)

/-- The titles indexed into category `i`, in step with `catNums`. -/
def catTitles (fns : List (List Char)) (i : Nat) : List (List Char) :=
  fns.filterMap (fun f =>
    if (splitHymn f).cat = CATS.getD i [] ∧ (splitHymn f).ext = ['p', 'p', 't', 'x']
    then some (splitHymn f).title else none)

/-- The `MISSING` report: every canonical 3-digit number in
`[1, HYMNS_MAX]` whose padded form is not in `hNums` (Python's
`"…" not in hNums` compares the string against each element, so the
integer sentinel `0` never matches). -/
def missingOf (fns : List (List Char)) : List (List Char) :=
  (List.range HYMNS_MAX).filterMap (fun i =>
    if NumField.str (toDigits3 (i + 1)) ∈ hNums fns then none
    else some (toDigits3 (i + 1)))

/-- `HymnsDatabase.parseHymnDatabase`, restricted to the fields the lookup
and equivalence paths read back (`HYMNAL[i][0/1]` and
`HYMNAL.MISSING.list`).  The flattened sorted `HYMNS` list and the `TOTAL`
counts feed only the UI search completer and status label; no operation
under verification consumes them, so they are not carried. -/
def parseHymnDatabase (fns : List (List Char)) : Hymnal :=
  { en := ⟨catNums fns 0, catTitles fns 0⟩
    tl := ⟨catNums fns 1, catTitles fns 1⟩
    us := ⟨catNums fns 2, catTitles fns 2⟩
    missing := missingOf fns }

/-- JSON-object lookup `obj[key]`, as `Option` (Python raises `KeyError`
on `none`; each call site below handles that case explicitly). -/
def dataLookup (data : List (List Char × List Int)) (key : List Char) :
    Option (List Int) :=
  (data.find? (fun p => p.1 = key)).map Prod.snd

/-- Python `dict.update({key: arr})`: replace the value at `key` keeping
its position, or append the binding when the key is absent (a Python dict
has unique keys, so replacing the first occurrence is exact on every
state a dict can hold). -/
def dataUpdate (data : List (List Char × List Int)) (key : List Char)
    (arr : List Int) : List (List Char × List Int) :=
  match data with
  | [] => [(key, arr)]
  | p :: ps => if p.1 = key then (key, arr) :: ps else p :: dataUpdate ps key arr

/-- The statistics JSON document (`data.json`): `__DATECREATED`,
`__FILETYPE__`, `__CHECKSUM__` and the `DATA` object mapping zero-padded
3-digit keys to `[queries, launches, lastAccessed]` arrays.  Timestamps
and counters are modelled as `Int`. -/
structure StatDoc where
  dateCreated : Int
  fileType : List Char
  checksum : Option (List Char)
  data : List (List Char × List Int)
deriving DecidableEq, Repr

/-- The all-zero `DATA` object generated by `Data.generateDefault`:
`{str(i+1).zfill(3): [0,0,0] for i in range(474)}`. -/
def defaultData : List (List Char × List Int) :=
  (List.range HYMNS_MAX).map (fun i => (toDigits3 (i + 1), ([0, 0, 0] : List Int)))

/-- The document `Data.generateDefault` builds before filling in the
checksum: `__CHECKSUM__` is still `None` when `KString.toHashMD5` is
applied to it. -/
def generateDefaultPre (now : Int) : StatDoc :=
  { dateCreated := now
    fileType := ("Hymnal Browser Statistical Data").toList
    checksum := none
    data := defaultData }

/-- `Data.generateDefault`: the persisted default document — the checksum
field is updated to the hash of the checksum-`None` document.  The hash
`KString.toHashMD5` is external to the repository and is passed in as an
opaque function `h`. -/
def generateDefault (now : Int) (h : StatDoc → List Char) : StatDoc :=
  { generateDefaultPre now with checksum := some (h (generateDefaultPre now)) }

/-- Outcome of `Data.verifyContents`'s probing loop over the loaded
document: `ok` (all probes succeed), `keyError` (a `[1, 474]` key is
absent — caught, triggers `generateDefault`), `indexError` (a key is
present but its array has fewer than 3 elements — `IndexError` is NOT
caught by the `except KeyError` handler and propagates). -/
inductive VerifyOutcome where
  | ok
  | keyError
  | indexError
deriving DecidableEq, Repr

/-- One iteration of `verifyContents`'s probe: `TARGET['DATA'][key]` then
`TARGET['DATA'][key][j]` for `j = 0, 1, 2`. -/
def probeEntry (data : List (List Char × List Int)) (i : Nat) : VerifyOutcome :=
  match dataLookup data (toDigits3 (i + 1)) with
  | none => .keyError
  | some arr => if 3 ≤ arr.length then .ok else .indexError

/-- `Data.verifyContents`'s probe loop over `i in range(474)`: the first
failing probe determines the outcome (an exception aborts the loop). -/
def verifyDoc (doc : StatDoc) : VerifyOutcome :=
  ((List.range HYMNS_MAX).map (probeEntry doc.data)).foldr
    (fun o acc => if o = .ok then acc else o) .ok

/-- Result of `Data.check`: either the document that ends up loaded into
`self.DATA` (and on disk), or an uncaught-exception crash. -/
inductive CheckResult where
  | loaded (doc : StatDoc)
  | crash
deriving DecidableEq, Repr

/-- `Data.check` over an explicit file state (`none` = file absent):
a missing file is regenerated; then `verifyContents` probes the loaded
document — a caught `KeyError` regenerates the whole default, an
`IndexError` escapes (crash) — and finally `self.DATA = self.load()`
returns the (possibly regenerated) document.  `load`'s JSON-decode retry
loop is not reachable in this model: documents are already structured. -/
def check (file : Option StatDoc) (now : Int) (h : StatDoc → List Char) :
    CheckResult :=
  let f1 := match file with
    | none => generateDefault now h
    | some d => d
  if verifyDoc f1 = .ok then .loaded f1
  else if verifyDoc f1 = .keyError then .loaded (generateDefault now h)
  else .crash

/-- `QWGT_SETTINGS.triggerButton`'s statistics reset (`os.remove` followed
by `SDB.check()`): `check` over an absent file. -/
def resetStats (now : Int) (h : StatDoc → List Char) : CheckResult :=
  check none now h

/-- One statistics mutation as performed at both write sites
(`SDATA['DATA'].update({num: ARRAY}); SDB.dump()`): the `DATA` object is
updated in place and the whole document re-serialized — the three header
fields are carried over verbatim and `dump` recomputes nothing. -/
def mutateStat (doc : StatDoc) (num : List Char) (arr : List Int) : StatDoc :=
  { doc with data := dataUpdate doc.data num arr }

/-- The lookup result namedtuple `HymnInfo` of `HymnsDatabase.getStats`.
The eleventh slot (`lastAcssHumanize`) is a human-readable rendering of
`lastAccessed` produced by the external `humanize` library and derived
from no other state; it is not carried. -/
structure HymnInfo where
  title : List Char
  num : List Char
  eqTitle : List Char
  eqNum : List Char
  cat : List Char
  eqCat : List Char
  dbIndex : StrOrNat
  queries : Int
  launches : Int
  lastAccessed : Int
deriving DecidableEq, Repr

/-- What `getStats` hands back: `none` for the bare `return` on an invalid
number string, `info` for a returned `HymnInfo`, `pyError` for an uncaught
`KeyError`/`IndexError` while reading `SDATA['DATA'][hN]`. -/
inductive QueryResult where
  | none
  | info (hi : HymnInfo)
  | pyError
deriving DecidableEq, Repr

/-- Python `list.index(x)` as an `Option` (the call sites wrap it in
`try/except ValueError`). -/
def pyIndex (l : List NumField) (x : NumField) : Option Nat :=
  l.findIdx? (fun y => y = x)

/-- The base-title scan of `getStats` (lines 942–948): the first of
EN, TL whose number sequence contains the key supplies the title; absent
from both, the title stays `''`.  Parallel sequences built by
`parseHymnDatabase` always have matching lengths (proved below), so the
`getD` default is never consulted there. -/
def baseTitle (hy : Hymnal) (key : List Char) : List Char :=
  match pyIndex hy.en.nums (.str key) with
  | some i => hy.en.titles.getD i []
  | none =>
    match pyIndex hy.tl.nums (.str key) with
    | some i => hy.tl.titles.getD i []
    | none => []

/-- Final state of the equivalent-hymn scan of `getStats` (lines
950–962): loop variable `i`, database index `idx` (placeholder 0 when no
equivalent was found), and the equivalent title/number (placeholder `''`).
When the number sits in category `i = 0` the target is `int(hN) + 1`,
in category `i = 1` it is `int(hN) - 1`
(`operator.add(int(hN), -1 if i else 1)`); a number in neither category
leaves the loop with `i = 1` after one `invert`. -/
structure EqScanSt where
  i : Nat
  idx : Nat
  eqTitle : List Char
  eqNum : List Char
deriving DecidableEq, Repr

def eqScan (hy : Hymnal) (hN : List Char) : EqScanSt :=
  if NumField.str hN ∈ hy.en.nums then
    let target := toDigits3 (pyInt hN + 1)
    match pyIndex hy.tl.nums (.str target) with
    | some k => ⟨0, k, hy.tl.titles.getD k [], target⟩
    | none => ⟨0, 0, [], []⟩
  else if NumField.str hN ∈ hy.tl.nums then
    let target := toDigits3 (pyInt hN - 1)
    match pyIndex hy.en.nums (.str target) with
    | some k => ⟨1, k, hy.en.titles.getD k [], target⟩
    | none => ⟨1, 0, [], []⟩
  else ⟨1, 0, [], []⟩

/-- `HymnsDatabase.getStats(hN)`: returns the final `UIZ.EXEC_READY` flag
(set `False` on entry, `True` only when the resolved title is non-empty)
together with the result.  The guard at line 970
(`int(hN) or int(hN) <= SYS.HYMNS_MAX`) is vacuously true whenever that
line is reached — the early return has already excluded `int(hN) <= 0` —
so the statistics are always read from `SDATA['DATA'][hN]` there. -/
def getStats (hy : Hymnal) (sdata : List (List Char × List Int))
    (hN0 : List Char) : Bool × QueryResult :=
  let hN := zfill hN0 3
  if (filterNonDigits hN).length ≠ 0 then (false, .none)
  else
    let n := pyInt hN
    if n > HYMNS_MAX ∨ n ≤ 0 ∨ hN ∈ hy.missing then
      (false, .info ⟨[], hN, [], [], [], [], .s [], 0, 0, 0⟩)
    else
      let t := baseTitle hy (toDigits3 n)
      let e := eqScan hy hN
      let cat := if e.i = 0 then ['E', 'N'] else ['T', 'L']
      let eqCat := if e.i = 0 then ['T', 'L'] else ['E', 'N']
      match dataLookup sdata hN with
      | none => (false, .pyError)
      | some sts =>
        if sts.length < 3 then (false, .pyError)
        else
          (t ≠ [], .info ⟨t, hN, e.eqTitle, e.eqNum, cat, eqCat, .i e.idx,
            sts.getD 0 0, sts.getD 1 0, sts.getD 2 0⟩)

/-- The mutable UI-side statistics state the background logger touches:
the in-memory `SDATA['DATA']` object and `UIZ.LAST_QUERY_ID`. -/
structure UiState where
  sdata : List (List Char × List Int)
  lastQueryId : Option (List Char)
deriving DecidableEq, Repr

/-- The query-side statistics write, `ThreadBackground.run` lines
3122–3126: guarded by `int(num) in range(HYMNS_MAX + 1)` and by
`LAST_QUERY_ID != num` (a repeated consecutive query is NOT logged
again); the array written is
`[queries + 1, launches, lastAccessed]` — launches and the timestamp are
carried over from the `HymnInfo` snapshot unchanged. -/
def recordQuery (st : UiState) (hi : HymnInfo) : UiState :=
  if pyInt hi.num < HYMNS_MAX + 1 then
    if st.lastQueryId ≠ some hi.num then
      { sdata := dataUpdate st.sdata hi.num
          [hi.queries + 1, hi.launches, hi.lastAccessed]
        lastQueryId := some hi.num }
    else st
  else st

/-- The launch-side statistics write, `InputCore.executeFile` lines
1777–1778: `ARRAY = [queries + 1, launches + 1, time.time()]`. -/
def recordLaunch (sdata : List (List Char × List Int)) (hi : HymnInfo)
    (now : Int) : List (List Char × List Int) :=
  dataUpdate sdata hi.num [hi.queries + 1, hi.launches + 1, now]

/-- A user query followed by the background logger's write: `getStats`
refreshes `CURRENT_HINFO` from the store, then `recordQuery` logs it.
A query that returned no `HymnInfo` leaves the state untouched (the
logger never fires without a current info). -/
def queryThenRecord (hy : Hymnal) (st : UiState) (hN0 : List Char) :
    UiState :=
  match (getStats hy st.sdata hN0).2 with
  | .info hi => recordQuery st hi
  | _ => st

/-- Spec-side description of the extension rule ("extension = substring
after the final `.`"), written independently of `pySplit`: drop everything
up to and including the last separator occurrence (the whole string when
the separator never occurs, which is also what Python's
`split(sep)[-1]` yields there). -/
def afterLast (sep : Char) : List Char → List Char
  | [] => []
  | c :: rest =>
    if sep ∈ rest then afterLast sep rest
    else if c = sep then rest else c :: rest

/-! ## Concrete fixtures for counterexamples and witnesses -/

/-- The two-entry archive of the spec's worked example. -/
def fnsExample : List (List Char) :=
  [("EN 001 TitleA.pptx").toList, ("TL 002 TitleB.pptx").toList]

/-- An archive exercising both equivalence directions around number 010. -/
def fnsOffset : List (List Char) :=
  [("EN 010 A.pptx").toList, ("TL 011 B.pptx").toList, ("TL 009 C.pptx").toList]

/-- A statistics object holding an entry for number 010. -/
def sdOffset : List (List Char × List Int) := [(['0', '1', '0'], [0, 0, 0])]

/-- An archive whose only entry carries a valid number slot under an
unknown category code. -/
def fnsStray : List (List Char) := [("ZZ 001 Stray.pptx").toList]

/-- An archive with one stray-number entry and one indexed entry. -/
def fnsNoMatch : List (List Char) :=
  [("ZZ 050 Stray.pptx").toList, ("EN 001 A.pptx").toList]

/-- A statistics object with non-zero counters for number 050. -/
def sdNoMatch : List (List Char × List Int) := [(['0', '5', '0'], [3, 4, 5])]

/-- An archive containing hymn 123. -/
def fnsQuery : List (List Char) := [("EN 123 X.pptx").toList]

/-- Initial UI state for the double-query scenario: number 123 has 5
queries, 7 launches, last access at 99. -/
def stQuery : UiState := { sdata := [(['1', '2', '3'], [5, 7, 99])], lastQueryId := none }

/-- Initial UI state for the amended double-query witness. -/
def stQueryW : UiState := { sdata := [(['1', '2', '3'], [2, 3, 44])], lastQueryId := none }

/-- A concrete stand-in for the opaque hash parameter. -/
def hashNil : StatDoc → List Char := fun _ => []

/-- A hash stand-in that distinguishes a checksum-less document from a
checksum-bearing one. -/
def hashFlag : StatDoc → List Char :=
  fun d => if d.checksum = none then ['n'] else ['s']

/-- A statistics document whose entry for number 001 has only two of its
three positional fields. -/
def shortEntryDoc : StatDoc :=
  { generateDefaultPre 0 with data := dataUpdate defaultData ['0', '0', '1'] [0, 0] }

/-- A statistics document missing the key for number 317. -/
def missing317Doc : StatDoc :=
  { generateDefaultPre 0 with
    data := defaultData.filter (fun p => p.1 ≠ ['3', '1', '7']) }

/-! ## Supporting lemmas -/

theorem dataLookup_cons (p : List Char × List Int)
    (ps : List (List Char × List Int)) (k : List Char) :
    dataLookup (p :: ps) k =
      if p.1 = k then some p.2 else dataLookup ps k := by
  by_cases h : p.1 = k <;> simp [dataLookup, List.find?_cons, h]

theorem dataLookup_dataUpdate (d : List (List Char × List Int))
    (k k' : List Char) (arr : List Int) :
    dataLookup (dataUpdate d k arr) k' =
      if k' = k then some arr else dataLookup d k' := by
  induction d with
  | nil =>
    by_cases h : k' = k
    · simp [dataUpdate, dataLookup_cons, dataLookup, h]
    · have hs : k ≠ k' := fun hx => h hx.symm
      simp [dataUpdate, dataLookup_cons, dataLookup, h, hs]
  | cons p ps ih =>
    by_cases hp : p.1 = k
    · by_cases h : k' = k
      · simp [dataUpdate, hp, dataLookup_cons, h]
      · have hpk : p.1 ≠ k' := fun hx => h ((hx ▸ hp : (k' = k)))
        simp [dataUpdate, hp, dataLookup_cons, h, hp ▸ hpk, hpk]
    · by_cases h : p.1 = k'
      · have : k' ≠ k := fun hkk => hp (h.symm ▸ hkk)
        simp [dataUpdate, hp, dataLookup_cons, h, this]
      · simp [dataUpdate, hp, dataLookup_cons, h, ih]

theorem dataLookup_defaultData (i : Nat) (hi : i < HYMNS_MAX) :
    dataLookup defaultData (toDigits3 (i + 1)) = some [0, 0, 0] := by
  have hmem : (toDigits3 (i + 1), ([0, 0, 0] : List Int)) ∈ defaultData := by
    simp only [defaultData, List.mem_map, List.mem_range]
    exact ⟨i, hi, rfl⟩
  have hall : ∀ p ∈ defaultData, p.2 = [0, 0, 0] := by
    simp only [defaultData, List.mem_map, List.mem_range]
    rintro p ⟨j, -, rfl⟩
    rfl
  unfold dataLookup
  cases hf : defaultData.find? (fun p => p.1 = toDigits3 (i + 1)) with
  | none =>
    have := List.find?_eq_none.mp hf _ hmem
    simp at this
  | some p =>
    have := hall p (List.mem_of_find?_eq_some hf)
    simp [this]

theorem foldr_firstFail_ok (l : List VerifyOutcome) :
    l.foldr (fun o acc => if o = .ok then acc else o) .ok = .ok ↔
      ∀ o ∈ l, o = .ok := by
  induction l with
  | nil => simp
  | cons o t ih =>
    by_cases ho : o = .ok
    · simp [ho, ih]
    · simp [List.foldr_cons, ho]

theorem verifyDoc_ok_iff (doc : StatDoc) :
    verifyDoc doc = .ok ↔
      ∀ i < HYMNS_MAX, probeEntry doc.data i = .ok := by
  unfold verifyDoc
  rw [foldr_firstFail_ok]
  constructor
  · intro h i hi
    exact h _ (List.mem_map_of_mem _ (List.mem_range.mpr hi))
  · intro h o ho
    obtain ⟨i, hi, rfl⟩ := List.mem_map.mp ho
    exact h i (List.mem_range.mp hi)

theorem verifyDoc_generateDefault (now : Int) (h : StatDoc → List Char) :
    verifyDoc (generateDefault now h) = .ok := by
  rw [verifyDoc_ok_iff]
  intro i hi
  have hdata : (generateDefault now h).data = defaultData := rfl
  rw [hdata, probeEntry, dataLookup_defaultData i hi]
  simp

theorem mem_missingOf_iff (fns : List (List Char)) (n : Nat)
    (h1 : 1 ≤ n) (h2 : n ≤ HYMNS_MAX) :
    toDigits3 n ∈ missingOf fns ↔
      NumField.str (toDigits3 n) ∉ hNums fns := by
  constructor
  · intro hm
    simp only [missingOf, List.mem_filterMap, List.mem_range] at hm
    obtain ⟨i, hi, hcond⟩ := hm
    by_cases hmem : NumField.str (toDigits3 (i + 1)) ∈ hNums fns
    · simp [hmem] at hcond
    · simp only [hmem, if_neg, ite_eq_right_iff] at hcond
      have : toDigits3 (i + 1) = toDigits3 n := by
        by_contra hne
        simp [hne] at hcond
      rw [← this]
      exact hmem
  · intro hnm
    simp only [missingOf, List.mem_filterMap, List.mem_range]
    refine ⟨n - 1, by omega, ?_⟩
    rw [Nat.sub_add_cancel h1]
    simp [hnm]

theorem catNums_subset_hNums (fns : List (List Char)) (i : Nat)
    (x : NumField) (hx : x ∈ catNums fns i) : x ∈ hNums fns := by
  simp only [catNums, List.mem_filterMap, Option.ite_none_right_eq_some,
    Option.some.injEq] at hx
  obtain ⟨f, hf, -, hnum⟩ := hx
  simp only [hNums, List.mem_map]
  exact ⟨f, hf, hnum⟩

theorem pySplit_ne_nil (sep : Char) (s : List Char) : pySplit sep s ≠ [] := by
  cases s with
  | nil => simp [pySplit]
  | cons c rest =>
    by_cases h : c = sep
    · simp [pySplit, h]
    · simp only [pySplit, if_neg h]
      cases pySplit sep rest <;> simp

theorem pySplit_of_not_mem (sep : Char) (s : List Char) (h : sep ∉ s) :
    pySplit sep s = [s] := by
  induction s with
  | nil => rfl
  | cons c rest ih =>
    have hc : c ≠ sep := fun hx => h (hx ▸ List.mem_cons_self c rest)
    have hrest : sep ∉ rest := fun hx => h (List.mem_cons_of_mem c hx)
    simp [pySplit, hc, ih hrest]

theorem afterLast_of_not_mem (sep : Char) (s : List Char) (h : sep ∉ s) :
    afterLast sep s = s := by
  cases s with
  | nil => rfl
  | cons c rest =>
    have hc : c ≠ sep := fun hx => h (hx ▸ List.mem_cons_self c rest)
    have hrest : sep ∉ rest := fun hx => h (List.mem_cons_of_mem c hx)
    simp [afterLast, hrest, hc]

theorem pySplit_length_of_mem (sep : Char) (s : List Char) (h : sep ∈ s) :
    2 ≤ (pySplit sep s).length := by
  induction s with
  | nil => simp at h
  | cons c rest ih =>
    by_cases hc : c = sep
    · have := pySplit_ne_nil sep rest
      simp only [pySplit, if_pos hc, List.length_cons]
      cases hps : pySplit sep rest with
      | nil => exact absurd hps this
      | cons a l => simp
    · have hmem : sep ∈ rest := by
        rcases List.mem_cons.mp h with h1 | h2
        · exact absurd h1.symm hc
        · exact h2
      simp only [pySplit, if_neg hc]
      cases hps : pySplit sep rest with
      | nil => exact absurd hps (pySplit_ne_nil sep rest)
      | cons a l =>
        have := ih hmem
        rw [hps] at this
        simp only [List.length_cons] at this ⊢
        omega

theorem pySplit_getLastD (sep : Char) (s : List Char) :
    (pySplit sep s).getLastD [] = afterLast sep s := by
  induction s with
  | nil => rfl
  | cons c rest ih =>
    by_cases hc : c = sep
    · subst hc
      simp only [pySplit, if_pos rfl, afterLast, if_pos rfl]
      by_cases hmem : c ∈ rest
      · rw [if_pos hmem, ← ih]
        cases hps : pySplit c rest with
        | nil => exact absurd hps (pySplit_ne_nil c rest)
        | cons h t => simp
      · rw [if_neg hmem, pySplit_of_not_mem c rest hmem]
        rfl
    · simp only [pySplit, if_neg hc]
      cases hps : pySplit sep rest with
      | nil => exact absurd hps (pySplit_ne_nil sep rest)
      | cons h t =>
        cases t with
        | nil =>
          have hmem : sep ∉ rest := by
            intro hmem
            have := pySplit_length_of_mem sep rest hmem
            rw [hps] at this
            simp at this
          have := pySplit_of_not_mem sep rest hmem
          rw [hps] at this
          simp only [List.cons.injEq] at this
          simp [afterLast, hmem, hc, this.1]
        | cons x xs =>
          have hmem : sep ∈ rest := by
            by_contra hnm
            rw [pySplit_of_not_mem sep rest hnm] at hps
            simp at hps
          simp only [afterLast, if_pos hmem, ← ih, hps]
          simp

theorem check_some_of_verify_ok (d : StatDoc) (now : Int)
    (h : StatDoc → List Char) (hv : verifyDoc d = .ok) :
    check (some d) now h = .loaded d := by
  simp only [check, hv]
  rfl

theorem resetStats_eq_check_default (now : Int) (h : StatDoc → List Char) :
    resetStats now h = check (some (generateDefault now h)) now h := rfl

theorem pyIndex_eq_none (l : List NumField) (x : NumField) (h : x ∉ l) :
    pyIndex l x = none := by
  induction l with
  | nil => rfl
  | cons y t ih =>
    have hy : ¬(y = x) := fun hx => h (hx ▸ List.mem_cons_self y t)
    have ht : x ∉ t := fun hx => h (List.mem_cons_of_mem y hx)
    simp only [pyIndex, List.findIdx?_cons] at ih ⊢
    simp [hy, ih ht]

theorem pyIsdigit_iff (s : List Char) :
    pyIsdigit s = true ↔ s ≠ [] ∧ ∀ c ∈ s, c.isDigit := by
  simp [pyIsdigit, List.all_eq_true, List.isEmpty_iff]

theorem getStats_main (hy : Hymnal) (sd : List (List Char × List Int))
    (hN0 : List Char) (sts : List Int)
    (hdig : filterNonDigits (zfill hN0 3) = [])
    (hlo : 1 ≤ pyInt (zfill hN0 3))
    (hhi : pyInt (zfill hN0 3) ≤ HYMNS_MAX)
    (hmiss : zfill hN0 3 ∉ hy.missing)
    (hsd : dataLookup sd (zfill hN0 3) = some sts)
    (hlen : 3 ≤ sts.length) :
    getStats hy sd hN0 =
      (decide (baseTitle hy (toDigits3 (pyInt (zfill hN0 3))) ≠ []),
       .info ⟨baseTitle hy (toDigits3 (pyInt (zfill hN0 3))), zfill hN0 3,
         (eqScan hy (zfill hN0 3)).eqTitle, (eqScan hy (zfill hN0 3)).eqNum,
         (if (eqScan hy (zfill hN0 3)).i = 0 then ['E', 'N'] else ['T', 'L']),
         (if (eqScan hy (zfill hN0 3)).i = 0 then ['T', 'L'] else ['E', 'N']),
         .i (eqScan hy (zfill hN0 3)).idx,
         sts.getD 0 0, sts.getD 1 0, sts.getD 2 0⟩) := by
  have h1 : ¬((filterNonDigits (zfill hN0 3)).length ≠ 0) := by
    rw [hdig]; simp
  have h2 : ¬(pyInt (zfill hN0 3) > HYMNS_MAX ∨ pyInt (zfill hN0 3) ≤ 0 ∨
      zfill hN0 3 ∈ hy.missing) := by
    push_neg
    exact ⟨by omega, by omega, hmiss⟩
  simp only [getStats, if_neg h1, if_neg h2, hsd]
  rw [if_neg (by omega)]

theorem getStats_earlyReturn (hy : Hymnal) (sd : List (List Char × List Int))
    (hN0 : List Char)
    (hdig : filterNonDigits (zfill hN0 3) = [])
    (hbad : HYMNS_MAX < pyInt (zfill hN0 3) ∨ pyInt (zfill hN0 3) = 0 ∨
      zfill hN0 3 ∈ hy.missing) :
    getStats hy sd hN0 =
      (false, .info ⟨[], zfill hN0 3, [], [], [], [], .s [], 0, 0, 0⟩) := by
  have h1 : ¬((filterNonDigits (zfill hN0 3)).length ≠ 0) := by
    rw [hdig]; simp
  have h2 : pyInt (zfill hN0 3) > HYMNS_MAX ∨ pyInt (zfill hN0 3) ≤ 0 ∨
      zfill hN0 3 ∈ hy.missing := by
    rcases hbad with h | h | h
    · exact Or.inl h
    · exact Or.inr (Or.inl (by omega))
    · exact Or.inr (Or.inr h)
  simp only [getStats, if_neg h1, if_pos h2]

theorem pyInt_toDigits3_all : ∀ n < 475, pyInt (toDigits3 n) = n := by decide

theorem toDigits3_inj_on (a b : Nat) (ha : a < 475) (hb : b < 475)
    (h : toDigits3 a = toDigits3 b) : a = b := by
  have h1 := pyInt_toDigits3_all a ha
  have h2 := pyInt_toDigits3_all b hb
  rw [h, h2] at h1
  omega

theorem dataLookup_filterKey_self (d : List (List Char × List Int))
    (k : List Char) :
    dataLookup (d.filter (fun p => p.1 ≠ k)) k = none := by
  induction d with
  | nil => rfl
  | cons p ps ih =>
    by_cases hp : p.1 = k
    · simp only [List.filter_cons]
      rw [if_neg (by simp [hp])]
      exact ih
    · simp only [List.filter_cons]
      rw [if_pos (by simp [hp]), dataLookup_cons, if_neg hp]
      exact ih

theorem dataLookup_filterKey_other (d : List (List Char × List Int))
    (k k' : List Char) (h : k' ≠ k) :
    dataLookup (d.filter (fun p => p.1 ≠ k)) k' = dataLookup d k' := by
  induction d with
  | nil => rfl
  | cons p ps ih =>
    by_cases hp : p.1 = k
    · simp only [List.filter_cons]
      rw [if_neg (by simp [hp]), dataLookup_cons,
        if_neg (fun hx => h (hx.symm.trans hp)), ih]
    · simp only [List.filter_cons]
      rw [if_pos (by simp [hp]), dataLookup_cons, dataLookup_cons]
      by_cases hk : p.1 = k'
      · rw [if_pos hk, if_pos hk]
      · rw [if_neg hk, if_neg hk, ih]

theorem foldr_firstFail_append (l1 l2 : List VerifyOutcome) (x : VerifyOutcome)
    (h1 : ∀ o ∈ l1, o = .ok) (hx : ¬x = .ok) :
    (l1 ++ x :: l2).foldr (fun o acc => if o = .ok then acc else o) .ok = x := by
  induction l1 with
  | nil => simp [hx]
  | cons a t ih =>
    have ha := h1 a (List.mem_cons_self a t)
    simp only [List.cons_append, List.foldr_cons, ha, if_pos]
    exact ih (fun o ho => h1 o (List.mem_cons_of_mem a ho))

theorem verifyDoc_eq_of_firstFail (doc : StatDoc) (m : Nat)
    (hm : m < HYMNS_MAX)
    (hok : ∀ i < m, probeEntry doc.data i = .ok)
    (hx : ¬probeEntry doc.data m = .ok) :
    verifyDoc doc = probeEntry doc.data m := by
  unfold verifyDoc
  have hsum : HYMNS_MAX = m + (HYMNS_MAX - m - 1 + 1) := by omega
  have hsplit : List.range HYMNS_MAX =
      List.range m ++ m :: (List.range (HYMNS_MAX - m - 1)).map
        (fun j => m + Nat.succ j) := by
    rw [hsum, List.range_add, List.range_succ_eq_map]
    simp
  rw [hsplit, List.map_append, List.map_cons]
  refine foldr_firstFail_append _ _ _ ?_ hx
  intro o ho
  obtain ⟨i, hi, rfl⟩ := List.mem_map.mp ho
  exact hok i (List.mem_range.mp hi)

theorem check_some_of_verify_keyError (d : StatDoc) (now : Int)
    (h : StatDoc → List Char) (hv : verifyDoc d = .keyError) :
    check (some d) now h = .loaded (generateDefault now h) := by
  simp only [check, hv]
  rfl

theorem check_some_of_verify_indexError (d : StatDoc) (now : Int)
    (h : StatDoc → List Char) (hv : verifyDoc d = .indexError) :
    check (some d) now h = .crash := by
  simp only [check, hv]
  rfl

theorem not_mem_missing_of_mem_hNums (fns : List (List Char)) (n : Nat)
    (h1 : 1 ≤ n) (h2 : n ≤ HYMNS_MAX)
    (hmem : NumField.str (toDigits3 n) ∈ hNums fns) :
    toDigits3 n ∉ (parseHymnDatabase fns).missing := by
  intro hm
  exact (mem_missingOf_iff fns n h1 h2).mp hm hmem

theorem mem_missing_of_not_mem_hNums (fns : List (List Char)) (n : Nat)
    (h1 : 1 ≤ n) (h2 : n ≤ HYMNS_MAX)
    (hmem : NumField.str (toDigits3 n) ∉ hNums fns) :
    toDigits3 n ∈ (parseHymnDatabase fns).missing :=
  (mem_missingOf_iff fns n h1 h2).mpr hmem

theorem getStats_noMatch (hy : Hymnal)
    (sd : List (List Char × List Int)) (hN0 : List Char) (sts : List Int)
    (hdig : filterNonDigits (zfill hN0 3) = [])
    (hlo : 1 ≤ pyInt (zfill hN0 3)) (hhi : pyInt (zfill hN0 3) ≤ HYMNS_MAX)
    (hmiss : zfill hN0 3 ∉ hy.missing)
    (hcanon : toDigits3 (pyInt (zfill hN0 3)) = zfill hN0 3)
    (hen : NumField.str (zfill hN0 3) ∉ hy.en.nums)
    (htl : NumField.str (zfill hN0 3) ∉ hy.tl.nums)
    (hsd : dataLookup sd (zfill hN0 3) = some sts) (hlen : 3 ≤ sts.length) :
    getStats hy sd hN0 =
      (false, .info ⟨[], zfill hN0 3, [], [], ['T', 'L'], ['E', 'N'], .i 0,
        sts.getD 0 0, sts.getD 1 0, sts.getD 2 0⟩) := by
  rw [getStats_main hy sd hN0 sts hdig hlo hhi hmiss hsd hlen]
  have hbase : baseTitle hy (toDigits3 (pyInt (zfill hN0 3))) = [] := by
    rw [hcanon]
    unfold baseTitle
    rw [pyIndex_eq_none hy.en.nums _ hen, pyIndex_eq_none hy.tl.nums _ htl]
  have hscan : eqScan hy (zfill hN0 3) = ⟨1, 0, [], []⟩ := by
    simp [eqScan, hen, htl]
  rw [hbase, hscan]
  simp

theorem queryThenRecord_twice (hy : Hymnal) (st : UiState)
    (hN0 : List Char) (q l a : Int)
    (hdig : filterNonDigits (zfill hN0 3) = [])
    (hlo : 1 ≤ pyInt (zfill hN0 3)) (hhi : pyInt (zfill hN0 3) ≤ HYMNS_MAX)
    (hmiss : zfill hN0 3 ∉ hy.missing)
    (hsd : dataLookup st.sdata (zfill hN0 3) = some [q, l, a])
    (hlast : st.lastQueryId ≠ some (zfill hN0 3)) :
    dataLookup (queryThenRecord hy (queryThenRecord hy st hN0) hN0).sdata
        (zfill hN0 3) = some [q + 1, l, a] ∧
    (queryThenRecord hy (queryThenRecord hy st hN0) hN0).lastQueryId =
      some (zfill hN0 3) := by
  have hstep1 : queryThenRecord hy st hN0 =
      { sdata := dataUpdate st.sdata (zfill hN0 3) [q + 1, l, a]
        lastQueryId := some (zfill hN0 3) } := by
    unfold queryThenRecord
    rw [getStats_main hy st.sdata hN0 [q, l, a] hdig hlo hhi hmiss hsd
      (by simp)]
    simp only [recordQuery]
    rw [if_pos (by omega), if_pos (by simpa using hlast)]
    simp
  rw [hstep1]
  have hsd2 : dataLookup (dataUpdate st.sdata (zfill hN0 3) [q + 1, l, a])
      (zfill hN0 3) = some [q + 1, l, a] := by
    rw [dataLookup_dataUpdate]
    simp
  have hstep2 : queryThenRecord hy
      ({ sdata := dataUpdate st.sdata (zfill hN0 3) [q + 1, l, a]
         lastQueryId := some (zfill hN0 3) } : UiState) hN0 =
      { sdata := dataUpdate st.sdata (zfill hN0 3) [q + 1, l, a]
        lastQueryId := some (zfill hN0 3) } := by
    unfold queryThenRecord
    rw [getStats_main hy _ hN0 [q + 1, l, a] hdig hlo hhi hmiss hsd2
      (by simp)]
    simp [recordQuery]
  rw [hstep2]
  exact ⟨hsd2, rfl⟩

/-! ## Claim theorems -/

/-- C2: for the catalog built from an archive holding exactly
`EN 001 TitleA.pptx` and `TL 002 TitleB.pptx`, resolving number "001"
yields category EN (Primary), equivalent category TL (Secondary),
equivalent number "002" and equivalent title "TitleB" (with an all-zero
statistics record supplying the counters). -/
theorem claim2_example_resolution :
    getStats (parseHymnDatabase fnsExample) defaultData ['0', '0', '1'] =
      (true, .info ⟨("TitleA").toList, ['0', '0', '1'], ("TitleB").toList,
        ['0', '0', '2'], ['E', 'N'], ['T', 'L'], .i 0, 0, 0, 0⟩) := by
  have hmiss : zfill ['0', '0', '1'] 3 ∉
      (parseHymnDatabase fnsExample).missing := by
    have h1 : zfill (['0', '0', '1'] : List Char) 3 = toDigits3 1 := by decide
    rw [h1]
    exact not_mem_missing_of_mem_hNums fnsExample 1 (by decide) (by decide)
      (by decide)
  have hsd : dataLookup defaultData (zfill ['0', '0', '1'] 3) =
      some [0, 0, 0] := by
    have h1 : zfill (['0', '0', '1'] : List Char) 3 = toDigits3 (0 + 1) := by
      decide
    rw [h1]
    exact dataLookup_defaultData 0 (by decide)
  rw [getStats_main (parseHymnDatabase fnsExample) defaultData ['0', '0', '1']
    [0, 0, 0] (by decide) (by decide) (by decide) hmiss hsd (by decide)]
  decide

/-- C1, counterexample: number "010" is found in category index 0 (EN) of
the catalog built from `fnsOffset`, and the resolver reports equivalent
number "011" — `number + 1`, not the claimed `number - 1` = "009". -/
theorem claim1_counterexample :
    (getStats (parseHymnDatabase fnsOffset) sdOffset ['0', '1', '0']).2 =
      .info ⟨['A'], ['0', '1', '0'], ['B'], ['0', '1', '1'], ['E', 'N'],
        ['T', 'L'], .i 0, 0, 0, 0⟩ ∧
    (['0', '1', '1'] : List Char) ≠ ['0', '0', '9'] := by
  refine ⟨?_, by decide⟩
  have hmiss : zfill ['0', '1', '0'] 3 ∉
      (parseHymnDatabase fnsOffset).missing := by
    have h1 : zfill (['0', '1', '0'] : List Char) 3 = toDigits3 10 := by decide
    rw [h1]
    exact not_mem_missing_of_mem_hNums fnsOffset 10 (by decide) (by decide)
      (by decide)
  rw [getStats_main (parseHymnDatabase fnsOffset) sdOffset ['0', '1', '0']
    [0, 0, 0] (by decide) (by decide) (by decide) hmiss (by decide)
    (by decide)]
  decide

/-- C3, counterexample: in the catalog built from the single entry
`ZZ 001 Stray.pptx`, the number 001 appears in no category's number
sequence and also not in the missing list — its number slot entered
`hNums` through a non-indexed (unknown-category) entry, so the claimed
partition of `[1, MAX]` fails at n = 1. -/
theorem claim3_counterexample :
    NumField.str ['0', '0', '1'] ∉ (parseHymnDatabase fnsStray).en.nums ∧
    NumField.str ['0', '0', '1'] ∉ (parseHymnDatabase fnsStray).tl.nums ∧
    NumField.str ['0', '0', '1'] ∉ (parseHymnDatabase fnsStray).us.nums ∧
    ['0', '0', '1'] ∉ (parseHymnDatabase fnsStray).missing := by
  refine ⟨by decide, by decide, by decide, ?_⟩
  have h1 : (['0', '0', '1'] : List Char) = toDigits3 1 := by decide
  rw [h1]
  exact not_mem_missing_of_mem_hNums fnsStray 1 (by decide) (by decide)
    (by decide)

/-- C9, counterexample: number "050" is valid, not in the missing list
(a stray `ZZ`-category entry carries it), and absent from both EN and TL —
yet the result is not all-placeholder: `cat` is "TL" and `eqCat` is "EN"
(the scan's final loop state), and the statistics fields 3, 4, 5 come from
the store rather than staying 0. -/
theorem claim9_counterexample :
    getStats (parseHymnDatabase fnsNoMatch) sdNoMatch ['0', '5', '0'] =
      (false, .info ⟨[], ['0', '5', '0'], [], [], ['T', 'L'], ['E', 'N'],
        .i 0, 3, 4, 5⟩) ∧
    (['T', 'L'] : List Char) ≠ ([] : List Char) := by
  refine ⟨?_, by decide⟩
  have hmiss : zfill ['0', '5', '0'] 3 ∉
      (parseHymnDatabase fnsNoMatch).missing := by
    have h1 : zfill (['0', '5', '0'] : List Char) 3 = toDigits3 50 := by decide
    rw [h1]
    exact not_mem_missing_of_mem_hNums fnsNoMatch 50 (by decide) (by decide)
      (by decide)
  rw [getStats_noMatch (parseHymnDatabase fnsNoMatch) sdNoMatch ['0', '5', '0']
    [3, 4, 5] (by decide) (by decide) (by decide) hmiss (by decide)
    (by decide) (by decide) (by decide) (by decide)]
  decide

/-- C4, counterexample: with number 123 holding 5 queries, 7 launches and
last access 99, two successive query-record cycles for "123" leave the
entry at `[6, 7, 99]`: queries grew by 1 (the second, consecutive
identical query is suppressed by `LAST_QUERY_ID`), not by the claimed 2,
and `lastAccessed` keeps its old value 99 instead of the second call's
current time. -/
theorem claim4_counterexample :
    dataLookup (queryThenRecord (parseHymnDatabase fnsQuery)
        (queryThenRecord (parseHymnDatabase fnsQuery) stQuery
          ['1', '2', '3']) ['1', '2', '3']).sdata ['1', '2', '3'] =
      some [6, 7, 99] ∧
    ¬(6 : Int) = 5 + 2 := by
  have hmiss : zfill ['1', '2', '3'] 3 ∉
      (parseHymnDatabase fnsQuery).missing := by
    have h1 : zfill (['1', '2', '3'] : List Char) 3 = toDigits3 123 := by
      decide
    rw [h1]
    exact not_mem_missing_of_mem_hNums fnsQuery 123 (by decide) (by decide)
      (by decide)
  have h2 := queryThenRecord_twice (parseHymnDatabase fnsQuery) stQuery
    ['1', '2', '3'] 5 7 99 (by decide) (by decide) (by decide) hmiss
    (by decide) (by decide)
  have h3 : zfill (['1', '2', '3'] : List Char) 3 = ['1', '2', '3'] := by
    decide
  rw [h3] at h2
  refine ⟨?_, by norm_num⟩
  rw [h2.1]
  norm_num

/-- C5: the corruption check of the statistics store. A document missing
the key "317" is detected (`KeyError`, caught) and the whole default
record is regenerated and loaded — per the claim. But a document whose
entry "001" carries only 2 of its 3 positional fields raises `IndexError`
inside the probe loop, which the `except KeyError` handler does not catch:
instead of regenerating, the load crashes. The probe loop over
`range(3)` exists precisely to validate those positional fields, so this
is a defect in the code, not in the claim. -/
theorem claim5_corruption_handling :
    verifyDoc missing317Doc = .keyError ∧
    check (some missing317Doc) 0 hashNil = .loaded (generateDefault 0 hashNil) ∧
    verifyDoc shortEntryDoc = .indexError ∧
    check (some shortEntryDoc) 0 hashNil = .crash := by
  have hd317 : missing317Doc.data =
      defaultData.filter (fun p => p.1 ≠ ['3', '1', '7']) := rfl
  have hx317 : probeEntry missing317Doc.data 316 = .keyError := by
    unfold probeEntry
    rw [hd317]
    have h1 : toDigits3 (316 + 1) = ['3', '1', '7'] := by decide
    rw [h1, dataLookup_filterKey_self]
  have hm317 : verifyDoc missing317Doc = .keyError := by
    have hok : ∀ i < 316, probeEntry missing317Doc.data i = .ok := by
      intro i hi
      have hne : toDigits3 (i + 1) ≠ ['3', '1', '7'] := by
        intro heq
        have h1 : (['3', '1', '7'] : List Char) = toDigits3 317 := by decide
        rw [h1] at heq
        have := toDigits3_inj_on (i + 1) 317 (by omega) (by omega) heq
        omega
      unfold probeEntry
      rw [hd317, dataLookup_filterKey_other _ _ _ hne,
        dataLookup_defaultData i (by unfold HYMNS_MAX; omega)]
      simp
    have := verifyDoc_eq_of_firstFail missing317Doc 316
      (by unfold HYMNS_MAX; omega) hok (by rw [hx317]; decide)
    rw [this, hx317]
  have hxse : probeEntry shortEntryDoc.data 0 = .indexError := by
    have hd : shortEntryDoc.data =
        dataUpdate defaultData ['0', '0', '1'] [0, 0] := rfl
    unfold probeEntry
    rw [hd]
    have h1 : toDigits3 (0 + 1) = ['0', '0', '1'] := by decide
    rw [h1, dataLookup_dataUpdate]
    simp
  have hse : verifyDoc shortEntryDoc = .indexError := by
    have := verifyDoc_eq_of_firstFail shortEntryDoc 0
      (by unfold HYMNS_MAX; omega)
      (fun i hi => absurd hi (by omega)) (by rw [hxse]; decide)
    rw [this, hxse]
  exact ⟨hm317, check_some_of_verify_keyError _ _ _ hm317, hse,
    check_some_of_verify_indexError _ _ _ hse⟩

/-- C6: a query for a number that is in the catalog's missing list, or
outside `[1, 474]`, returns with the readiness flag false and the
all-placeholder result; in particular the readiness flag a query leaves
behind is never true for an item in `missing` (the flag is rewritten by
every query, so this covers every state the query operations can reach). -/
theorem claim6_missing_never_ready (hy : Hymnal)
    (sd : List (List Char × List Int)) (hN0 : List Char)
    (hdig : filterNonDigits (zfill hN0 3) = [])
    (hbad : HYMNS_MAX < pyInt (zfill hN0 3) ∨ pyInt (zfill hN0 3) = 0 ∨
      zfill hN0 3 ∈ hy.missing) :
    getStats hy sd hN0 =
      (false, .info ⟨[], zfill hN0 3, [], [], [], [], .s [], 0, 0, 0⟩) :=
  getStats_earlyReturn hy sd hN0 hdig hbad

/-- C6 witness: number "005" is in the missing list of the two-entry
example catalog, and its lookup returns flag false with the placeholder. -/
theorem claim6_missing_never_ready_witness :
    (filterNonDigits (zfill ['0', '0', '5'] 3) = [] ∧
      ['0', '0', '5'] ∈ (parseHymnDatabase fnsExample).missing) ∧
    getStats (parseHymnDatabase fnsExample) [] ['0', '0', '5'] =
      (false, .info ⟨[], zfill ['0', '0', '5'] 3, [], [], [], [], .s [],
        0, 0, 0⟩) :=
  have hmem : (['0', '0', '5'] : List Char) ∈
      (parseHymnDatabase fnsExample).missing := by
    have h1 : (['0', '0', '5'] : List Char) = toDigits3 5 := by decide
    rw [h1]
    exact mem_missing_of_not_mem_hNums fnsExample 5 (by decide) (by decide)
      (by decide)
  ⟨⟨by decide, hmem⟩, claim6_missing_never_ready (parseHymnDatabase fnsExample)
    [] ['0', '0', '5'] (by decide) (Or.inr (Or.inr (by
      rw [show zfill (['0', '0', '5'] : List Char) 3 = ['0', '0', '5'] from
        by decide]
      exact hmem)))⟩

/-- C7: resetting the statistics store (delete the file, then `check`)
loads the regenerated default document, and that document's `DATA` holds
the entry `[0, 0, 0]` for every number in `[1, 474]`. -/
theorem claim7_reset_roundtrip (now : Int) (h : StatDoc → List Char)
    (n : Nat) (h1 : 1 ≤ n) (h2 : n ≤ HYMNS_MAX) :
    resetStats now h = .loaded (generateDefault now h) ∧
    dataLookup (generateDefault now h).data (toDigits3 n) = some [0, 0, 0] := by
  constructor
  · rw [resetStats_eq_check_default,
      check_some_of_verify_ok _ _ _ (verifyDoc_generateDefault now h)]
  · have hd : (generateDefault now h).data = defaultData := rfl
    rw [hd]
    have := dataLookup_defaultData (n - 1) (by omega)
    rwa [Nat.sub_add_cancel h1] at this

/-- C7 witness: entry 317 of the reset-then-loaded record is `[0, 0, 0]`. -/
theorem claim7_reset_roundtrip_witness :
    (1 ≤ 317 ∧ 317 ≤ HYMNS_MAX) ∧
    (resetStats 0 hashNil = .loaded (generateDefault 0 hashNil) ∧
      dataLookup (generateDefault 0 hashNil).data (toDigits3 317) =
        some [0, 0, 0]) :=
  ⟨by decide, claim7_reset_roundtrip 0 hashNil 317 (by decide) (by decide)⟩

/-- C1, amended: for every number found in category index 0 (EN), the
resolver targets `number + 1` in TL; for every number found only in
category index 1 (TL), it targets `number - 1` in EN (the offsets are the
reverse of the claimed ones), each as a 3-digit zero-padded string, and it
reports the other category's title/number at that target when it exists. -/
theorem claim1_offset_amended (fns : List (List Char))
    (sd : List (List Char × List Int)) (hN0 : List Char) (k : Nat)
    (sts : List Int)
    (hdig : filterNonDigits (zfill hN0 3) = [])
    (hlo : 1 ≤ pyInt (zfill hN0 3)) (hhi : pyInt (zfill hN0 3) ≤ HYMNS_MAX)
    (hmiss : zfill hN0 3 ∉ (parseHymnDatabase fns).missing)
    (hsd : dataLookup sd (zfill hN0 3) = some sts) (hlen : 3 ≤ sts.length) :
    (NumField.str (zfill hN0 3) ∈ (parseHymnDatabase fns).en.nums →
     pyIndex (parseHymnDatabase fns).tl.nums
       (.str (toDigits3 (pyInt (zfill hN0 3) + 1))) = some k →
     ∃ hi, (getStats (parseHymnDatabase fns) sd hN0).2 = .info hi ∧
       hi.eqNum = toDigits3 (pyInt (zfill hN0 3) + 1) ∧
       hi.eqTitle = (parseHymnDatabase fns).tl.titles.getD k [] ∧
       hi.cat = ['E', 'N'] ∧ hi.eqCat = ['T', 'L']) ∧
    (NumField.str (zfill hN0 3) ∉ (parseHymnDatabase fns).en.nums →
     NumField.str (zfill hN0 3) ∈ (parseHymnDatabase fns).tl.nums →
     pyIndex (parseHymnDatabase fns).en.nums
       (.str (toDigits3 (pyInt (zfill hN0 3) - 1))) = some k →
     ∃ hi, (getStats (parseHymnDatabase fns) sd hN0).2 = .info hi ∧
       hi.eqNum = toDigits3 (pyInt (zfill hN0 3) - 1) ∧
       hi.eqTitle = (parseHymnDatabase fns).en.titles.getD k [] ∧
       hi.cat = ['T', 'L'] ∧ hi.eqCat = ['E', 'N']) := by
  rw [getStats_main (parseHymnDatabase fns) sd hN0 sts hdig hlo hhi hmiss hsd
    hlen]
  constructor
  · intro hmem hidx
    have hscan : eqScan (parseHymnDatabase fns) (zfill hN0 3) =
        ⟨0, k, (parseHymnDatabase fns).tl.titles.getD k [],
          toDigits3 (pyInt (zfill hN0 3) + 1)⟩ := by
      simp [eqScan, hmem, hidx]
    refine ⟨_, rfl, ?_, ?_, ?_, ?_⟩ <;> simp [hscan]
  · intro hnen hmem hidx
    have hscan : eqScan (parseHymnDatabase fns) (zfill hN0 3) =
        ⟨1, k, (parseHymnDatabase fns).en.titles.getD k [],
          toDigits3 (pyInt (zfill hN0 3) - 1)⟩ := by
      simp [eqScan, hnen, hmem, hidx]
    refine ⟨_, rfl, ?_, ?_, ?_, ?_⟩ <;> simp [hscan]

/-- C1 witness: on the `fnsOffset` archive, number "010" in EN resolves to
equivalent number "011" with title "B" from TL. -/
theorem claim1_offset_amended_witness :
    ∃ hi, (getStats (parseHymnDatabase fnsOffset) sdOffset ['0', '1', '0']).2 =
        .info hi ∧
      hi.eqNum = toDigits3 (pyInt (zfill ['0', '1', '0'] 3) + 1) ∧
      hi.eqTitle = (parseHymnDatabase fnsOffset).tl.titles.getD 0 [] ∧
      hi.cat = ['E', 'N'] ∧ hi.eqCat = ['T', 'L'] :=
  have hmiss : zfill ['0', '1', '0'] 3 ∉
      (parseHymnDatabase fnsOffset).missing := by
    rw [show zfill (['0', '1', '0'] : List Char) 3 = toDigits3 10 from
      by decide]
    exact not_mem_missing_of_mem_hNums fnsOffset 10 (by decide) (by decide)
      (by decide)
  (claim1_offset_amended fnsOffset sdOffset ['0', '1', '0'] 0 [0, 0, 0]
    (by decide) (by decide) (by decide) hmiss (by decide) (by decide)).1
    (by decide) (by decide)

/-- C3, amended: for every archive entry list and every n in `[1, 474]`,
n's padded form is in `missing.list` exactly when it appears as the parsed
number of NO archive entry; a number indexed in a category always appears
among the parsed numbers, so a category number is never in `missing.list`
— but a number parsed only from a non-indexed (stray) entry appears in no
category sequence and still stays out of `missing.list`. -/
theorem claim3_partition_amended (fns : List (List Char)) (n i : Nat)
    (h1 : 1 ≤ n) (h2 : n ≤ HYMNS_MAX) :
    (toDigits3 n ∈ (parseHymnDatabase fns).missing ↔
      NumField.str (toDigits3 n) ∉ hNums fns) ∧
    (NumField.str (toDigits3 n) ∈ catNums fns i →
      toDigits3 n ∉ (parseHymnDatabase fns).missing) := by
  have hm : (parseHymnDatabase fns).missing = missingOf fns := rfl
  constructor
  · rw [hm]
    exact mem_missingOf_iff fns n h1 h2
  · intro hcat hmem
    rw [hm] at hmem
    exact (mem_missingOf_iff fns n h1 h2).mp hmem
      (catNums_subset_hNums fns i _ hcat)

/-- C3 witness: the partition statement instantiated at n = 2 over the
two-entry example archive. -/
theorem claim3_partition_amended_witness :
    (1 ≤ 2 ∧ 2 ≤ HYMNS_MAX) ∧
    ((toDigits3 2 ∈ (parseHymnDatabase fnsExample).missing ↔
       NumField.str (toDigits3 2) ∉ hNums fnsExample) ∧
     (NumField.str (toDigits3 2) ∈ catNums fnsExample 1 →
       toDigits3 2 ∉ (parseHymnDatabase fnsExample).missing)) :=
  ⟨by decide, claim3_partition_amended fnsExample 2 1 (by decide) (by decide)⟩

/-- C4, amended: two successive query-record cycles for the same number
increment its queries counter by exactly 1 — the second consecutive
identical query is suppressed by `LAST_QUERY_ID` — leave the launches
counter unchanged, and leave `lastAccessed` unchanged (the query path
writes back the previously read timestamp, not the current time). -/
theorem claim4_double_query_amended (hy : Hymnal) (st : UiState)
    (hN0 : List Char) (q l a : Int)
    (hdig : filterNonDigits (zfill hN0 3) = [])
    (hlo : 1 ≤ pyInt (zfill hN0 3)) (hhi : pyInt (zfill hN0 3) ≤ HYMNS_MAX)
    (hmiss : zfill hN0 3 ∉ hy.missing)
    (hsd : dataLookup st.sdata (zfill hN0 3) = some [q, l, a])
    (hlast : st.lastQueryId ≠ some (zfill hN0 3)) :
    dataLookup (queryThenRecord hy (queryThenRecord hy st hN0) hN0).sdata
        (zfill hN0 3) = some [q + 1, l, a] ∧
    (queryThenRecord hy (queryThenRecord hy st hN0) hN0).lastQueryId =
      some (zfill hN0 3) :=
  queryThenRecord_twice hy st hN0 q l a hdig hlo hhi hmiss hsd hlast

/-- C4 witness: starting from 2 queries, 3 launches, last access 44, two
query-record cycles for "123" end at `[3, 3, 44]`. -/
theorem claim4_double_query_amended_witness :
    (dataLookup stQueryW.sdata (zfill ['1', '2', '3'] 3) =
        some [2, 3, 44] ∧
      stQueryW.lastQueryId ≠ some (zfill ['1', '2', '3'] 3)) ∧
    (dataLookup (queryThenRecord (parseHymnDatabase fnsQuery)
        (queryThenRecord (parseHymnDatabase fnsQuery) stQueryW
          ['1', '2', '3']) ['1', '2', '3']).sdata (zfill ['1', '2', '3'] 3) =
      some [2 + 1, 3, 44] ∧
    (queryThenRecord (parseHymnDatabase fnsQuery)
        (queryThenRecord (parseHymnDatabase fnsQuery) stQueryW
          ['1', '2', '3']) ['1', '2', '3']).lastQueryId =
      some (zfill ['1', '2', '3'] 3)) :=
  have hmiss : zfill ['1', '2', '3'] 3 ∉
      (parseHymnDatabase fnsQuery).missing := by
    rw [show zfill (['1', '2', '3'] : List Char) 3 = toDigits3 123 from
      by decide]
    exact not_mem_missing_of_mem_hNums fnsQuery 123 (by decide) (by decide)
      (by decide)
  ⟨by decide, claim4_double_query_amended (parseHymnDatabase fnsQuery)
    stQueryW ['1', '2', '3'] 2 3 44 (by decide) (by decide) (by decide)
    hmiss (by decide) (by decide)⟩

/-- C8: the positional split of an archive entry filename — category is
the first 2 characters, number is characters 4–6 when they are all digits
and otherwise the sentinel 0, title is the remainder after the first 7
characters with the last 5 characters of the name removed, and extension
is the substring after the final dot. -/
theorem claim8_split_fields (f : List Char) :
    (splitHymn f).cat = f.take 2 ∧
    (splitHymn f).num =
      (if (f.drop 3).take 3 ≠ [] ∧ (∀ c ∈ (f.drop 3).take 3, c.isDigit) then
        NumField.str ((f.drop 3).take 3)
       else NumField.zero) ∧
    (splitHymn f).title = (f.take (f.length - 5)).drop 7 ∧
    (splitHymn f).ext = afterLast '.' f := by
  refine ⟨?_, ?_, ?_, ?_⟩
  · simp [splitHymn, pySlice]
  · by_cases h : (f.drop 3).take 3 ≠ [] ∧ ∀ c ∈ (f.drop 3).take 3, c.isDigit
    · rw [if_pos h]
      have hb := (pyIsdigit_iff ((f.drop 3).take 3)).mpr h
      simp only [splitHymn, pySlice]
      norm_num
      simp [hb]
    · rw [if_neg h]
      have hb : ¬pyIsdigit ((f.drop 3).take 3) = true :=
        fun hx => h ((pyIsdigit_iff _).mp hx)
      simp only [splitHymn, pySlice]
      norm_num
      simp [hb]
  · simp [splitHymn, pySliceNeg, List.drop_take]
  · simp only [splitHymn]
    exact pySplit_getLastD '.' f

/-- C9, amended: a valid 3-digit number that passes the missing-list check
but sits in neither EN nor TL yields readiness false, an empty title and
empty equivalence fields — the no-match signal — but the category and
equivalent-category fields end up holding "TL" and "EN" (the scan's final
loop state), `dbIndex` holds the integer 0, and the three statistics
fields are read from the statistics store rather than zeroed. -/
theorem claim9_no_match_amended (hy : Hymnal)
    (sd : List (List Char × List Int)) (hN0 : List Char) (sts : List Int)
    (hdig : filterNonDigits (zfill hN0 3) = [])
    (hlo : 1 ≤ pyInt (zfill hN0 3)) (hhi : pyInt (zfill hN0 3) ≤ HYMNS_MAX)
    (hmiss : zfill hN0 3 ∉ hy.missing)
    (hcanon : toDigits3 (pyInt (zfill hN0 3)) = zfill hN0 3)
    (hen : NumField.str (zfill hN0 3) ∉ hy.en.nums)
    (htl : NumField.str (zfill hN0 3) ∉ hy.tl.nums)
    (hsd : dataLookup sd (zfill hN0 3) = some sts) (hlen : 3 ≤ sts.length) :
    getStats hy sd hN0 =
      (false, .info ⟨[], zfill hN0 3, [], [], ['T', 'L'], ['E', 'N'], .i 0,
        sts.getD 0 0, sts.getD 1 0, sts.getD 2 0⟩) :=
  getStats_noMatch hy sd hN0 sts hdig hlo hhi hmiss hcanon hen htl hsd hlen

/-- C9 witness: the amended no-match shape instantiated on the stray-entry
archive at number "050" with store entry `[3, 4, 5]`. -/
theorem claim9_no_match_amended_witness :
    (toDigits3 (pyInt (zfill ['0', '5', '0'] 3)) = zfill ['0', '5', '0'] 3 ∧
      NumField.str (zfill ['0', '5', '0'] 3) ∉
        (parseHymnDatabase fnsNoMatch).en.nums) ∧
    getStats (parseHymnDatabase fnsNoMatch) sdNoMatch ['0', '5', '0'] =
      (false, .info ⟨[], zfill ['0', '5', '0'] 3, [], [], ['T', 'L'],
        ['E', 'N'], .i 0, ([3, 4, 5] : List Int).getD 0 0,
        ([3, 4, 5] : List Int).getD 1 0, ([3, 4, 5] : List Int).getD 2 0⟩) :=
  have hmiss : zfill ['0', '5', '0'] 3 ∉
      (parseHymnDatabase fnsNoMatch).missing := by
    rw [show zfill (['0', '5', '0'] : List Char) 3 = toDigits3 50 from
      by decide]
    exact not_mem_missing_of_mem_hNums fnsNoMatch 50 (by decide) (by decide)
      (by decide)
  ⟨by decide, claim9_no_match_amended (parseHymnDatabase fnsNoMatch) sdNoMatch
    ['0', '5', '0'] [3, 4, 5] (by decide) (by decide) (by decide) hmiss
    (by decide) (by decide) (by decide) (by decide) (by decide)⟩

/-- C10: every statistics mutation carries the `__DATECREATED`,
`__FILETYPE__` and `__CHECKSUM__` fields over unchanged (`dump` recomputes
nothing); after mutating a counter of the freshly generated document the
stored checksum is still the hash taken at generation time over the
checksum-`None` document, the verification probe still accepts the
document, and — provided the hash does not collide on the two documents —
the stored checksum no longer equals the hash of the current content. -/
theorem claim10_checksum_frame (now : Int) (h : StatDoc → List Char)
    (num : List Char) (q l a : Int)
    (hcol : h (generateDefaultPre now) =
        h (mutateStat (generateDefault now h) num [q, l, a]) →
      generateDefaultPre now =
        mutateStat (generateDefault now h) num [q, l, a]) :
    (∀ doc arr, (mutateStat doc num arr).dateCreated = doc.dateCreated ∧
      (mutateStat doc num arr).fileType = doc.fileType ∧
      (mutateStat doc num arr).checksum = doc.checksum) ∧
    (mutateStat (generateDefault now h) num [q, l, a]).checksum =
      some (h (generateDefaultPre now)) ∧
    verifyDoc (mutateStat (generateDefault now h) num [q, l, a]) = .ok ∧
    (mutateStat (generateDefault now h) num [q, l, a]).checksum ≠
      some (h (mutateStat (generateDefault now h) num [q, l, a])) := by
  refine ⟨fun doc arr => ⟨rfl, rfl, rfl⟩, rfl, ?_, ?_⟩
  · rw [verifyDoc_ok_iff]
    intro i hi
    have hdata : (mutateStat (generateDefault now h) num [q, l, a]).data =
        dataUpdate defaultData num [q, l, a] := rfl
    unfold probeEntry
    rw [hdata, dataLookup_dataUpdate]
    by_cases hk : toDigits3 (i + 1) = num
    · simp [hk]
    · rw [if_neg hk, dataLookup_defaultData i hi]
      simp
  · intro heq
    have h1 : (mutateStat (generateDefault now h) num [q, l, a]).checksum =
        some (h (generateDefaultPre now)) := rfl
    rw [h1, Option.some.injEq] at heq
    have h2 := hcol heq
    have h3 : (generateDefaultPre now).checksum = none := rfl
    rw [h2, h1] at h3
    exact Option.noConfusion h3

/-- C10 witness: the mutation of entry "123" under a hash stand-in that
separates the checksum-`None` generation document from the mutated one. -/
theorem claim10_checksum_frame_witness :
    (mutateStat (generateDefault 0 hashFlag) ['1', '2', '3']
        [1, 0, 5]).dateCreated = (generateDefault 0 hashFlag).dateCreated ∧
    (mutateStat (generateDefault 0 hashFlag) ['1', '2', '3']
        [1, 0, 5]).checksum = some (hashFlag (generateDefaultPre 0)) ∧
    verifyDoc (mutateStat (generateDefault 0 hashFlag) ['1', '2', '3']
        [1, 0, 5]) = .ok ∧
    (mutateStat (generateDefault 0 hashFlag) ['1', '2', '3']
        [1, 0, 5]).checksum ≠
      some (hashFlag (mutateStat (generateDefault 0 hashFlag) ['1', '2', '3']
        [1, 0, 5])) :=
  have hth := claim10_checksum_frame 0 hashFlag ['1', '2', '3'] 1 0 5
    (fun hc => absurd hc (by decide))
  ⟨(hth.1 (generateDefault 0 hashFlag) [1, 0, 5]).1, hth.2.1, hth.2.2.1,
    hth.2.2.2⟩

end HymnalBrowser
